import Mathlib

/-!
Shallow embedding of the HOSPIX record-keeping service
(src/src/backend/index.ts, with the delete-patient route from src/backup.ts).

The three `StableBTreeMap` stores are modelled as association lists with
upsert `insert`, first-match `get`, key `remove` and `keys`; keys are
unique in every state the service can reach (each insert uses the key it
was fetched or created under), so the association list is a faithful
abstraction of the ordered keyed map.  `Principal` values in backup.ts are
represented by their text form (`Principal.fromText` / `toText` are
mutually inverse).  JavaScript `undefined` for a request-body field is
modelled as `Option.none`; JS truthiness of strings and numbers is made
explicit in `truthyStr` / `truthyInt`.  The nondeterministic inputs of the
code (uuidv4 identifiers, `new Date().toISOString()` timestamps) are
passed as explicit parameters.  Every route handler becomes a function
from inputs and state to `(Except ApiError result) × HState`; an error
result is always paired with the unchanged input state, as in the code no
error path writes to any store.
-/

/-- The keyed store: an association list from string keys to values. -/
abbrev Store (V : Type) : Type := List (String × V)

/-- `get(key)`: the value stored under `key`, if any (first match). -/
def Store.get {V : Type} : Store V → String → Option V
  | [], _ => none
  | (k, v) :: rest, key => if k = key then some v else Store.get rest key

/-- `insert(key, value)`: upsert, overwriting an existing binding for `key`. -/
def Store.insert {V : Type} : Store V → String → V → Store V
  | [], key, val => [(key, val)]
  | (k, v) :: rest, key, val =>
      if k = key then (key, val) :: rest else (k, v) :: Store.insert rest key val

/-- `remove(key)`: drop every binding for `key` (keys are unique in reachable
states, so this coincides with the map removal of the single binding). -/
def Store.remove {V : Type} : Store V → String → Store V
  | [], _ => []
  | (k, v) :: rest, key =>
      if k = key then Store.remove rest key else (k, v) :: Store.remove rest key

/-- `keys()`: the keys in store order. -/
def Store.keys {V : Type} (s : Store V) : List String := s.map Prod.fst

/-- Doctor record (index.ts `type Doctor`).  The `role` field is whatever
string the request supplied; the `Role` enum values are the strings
"FullAccess", "ReadOnly", "ExternalConsultant". -/
structure Doctor where
  doctorId : String
  name : String
  role : String
  department : String
deriving DecidableEq

/-- Patient record (index.ts `type Patient`).  `medicalHistory` and
`currentTreatment` are `Option`s because the handlers can store the
request value unchecked, and that value can be JS `undefined`. -/
structure Patient where
  patientId : String
  name : String
  age : Int
  medicalHistory : Option (List String)
  currentTreatment : Option String
  assignedDoctor : String
  reports : List String
deriving DecidableEq

/-- The patient input DTO (index.ts `class PatientDto`); every field can be
absent in the request body. -/
structure PatientDto where
  patientId : Option String
  name : Option String
  age : Option Int
  medicalHistory : Option (List String)
  currentTreatment : Option String
  assignedDoctor : Option String

/-- JS truthiness of an optional string: present and non-empty. -/
def truthyStr : Option String → Bool
  | none => false
  | some s => !(s == "")

/-- JS truthiness of an optional number: present and non-zero. -/
def truthyInt : Option Int → Bool
  | none => false
  | some n => !(n == 0)

/-- index.ts `validatePatientInput`: valid iff `patientId`, `name`, `age`
and `assignedDoctor` are all truthy. -/
def validatePatientInput (input : PatientDto) : Bool :=
  if !truthyStr input.patientId || !truthyStr input.name
      || !truthyInt input.age || !truthyStr input.assignedDoctor then
    false
  else
    true

/-- The error taxonomy of the handlers: HTTP 400 "Invalid..." is
`validationError`, 404 on a missing doctor/patient is `notFound`, 404
"Report not found" on a bad index is `indexOutOfRange`, and 403 on the
delete gate is `permissionDenied`. -/
inductive ApiError where
  | validationError
  | notFound
  | indexOutOfRange
  | permissionDenied
deriving DecidableEq

/-- The whole service state: the three stores. -/
structure HState where
  doctors : Store Doctor
  patients : Store Patient
  auditLogs : Store String
deriving DecidableEq

/-- index.ts `logAction`: insert `"<userId> - <action>"` under the
timestamp key. -/
def logAction (userId action ts : String) (s : HState) : HState :=
  { s with auditLogs := Store.insert s.auditLogs ts (userId ++ " - " ++ action) }

/-- index.ts `app.post js /doctors`: validate the three fields for
truthiness, build the doctor with a fresh id, insert, log. -/
def createDoctor (name role department : Option String) (newId ts : String)
    (s : HState) : Except ApiError Doctor × HState :=
  if !truthyStr name || !truthyStr role || !truthyStr department then
    (.error .validationError, s)
  else
    let newDoctor : Doctor :=
      { doctorId := newId, name := name.getD "", role := role.getD ""
        department := department.getD "" }
    let s1 := { s with doctors := Store.insert s.doctors newDoctor.doctorId newDoctor }
    (.ok newDoctor, logAction newDoctor.doctorId "Added new doctor" ts s1)

/-- index.ts `app.get js /doctors/:doctorId`. -/
def getDoctor (doctorId : String) (s : HState) : Except ApiError Doctor :=
  match Store.get s.doctors doctorId with
  | some d => .ok d
  | none => .error .notFound

/-- index.ts `app.post js /patients`: build the DTO with the generated id,
validate, then store the record with `medicalHistory ?? []` and empty
`reports`; log with the assigned doctor as actor. -/
def createPatient (name : Option String) (age : Option Int)
    (medicalHistory : Option (List String)) (currentTreatment : Option String)
    (assignedDoctor : Option String) (newId ts : String) (s : HState) :
    Except ApiError Patient × HState :=
  let patientInput : PatientDto :=
    { patientId := some newId, name := name, age := age
      medicalHistory := medicalHistory, currentTreatment := currentTreatment
      assignedDoctor := assignedDoctor }
  if !validatePatientInput patientInput then
    (.error .validationError, s)
  else
    let newPatient : Patient :=
      { patientId := newId, name := name.getD "", age := age.getD 0
        medicalHistory := some (medicalHistory.getD [])
        currentTreatment := currentTreatment
        assignedDoctor := assignedDoctor.getD "", reports := [] }
    let s1 := { s with patients := Store.insert s.patients newPatient.patientId newPatient }
    (.ok newPatient,
      logAction (assignedDoctor.getD "") ("Added patient record: " ++ newId) ts s1)

/-- index.ts `app.get js /patients/:patientId`. -/
def getPatient (patientId : String) (s : HState) : Except ApiError Patient :=
  match Store.get s.patients patientId with
  | some p => .ok p
  | none => .error .notFound

/-- index.ts `app.put js /patients/:patientId`: validate the DTO, fetch,
overwrite the five body fields (storing `medicalHistory` and
`currentTreatment` exactly as sent, with no default), re-insert, log. -/
def updatePatient (patientId : String) (name : Option String) (age : Option Int)
    (medicalHistory : Option (List String)) (currentTreatment : Option String)
    (assignedDoctor : Option String) (ts : String) (s : HState) :
    Except ApiError Patient × HState :=
  let patientInput : PatientDto :=
    { patientId := some patientId, name := name, age := age
      medicalHistory := medicalHistory, currentTreatment := currentTreatment
      assignedDoctor := assignedDoctor }
  if !validatePatientInput patientInput then
    (.error .validationError, s)
  else
    match Store.get s.patients patientId with
    | some patient =>
      let patient1 : Patient :=
        { patient with
          name := name.getD "", age := age.getD 0
          medicalHistory := medicalHistory
          currentTreatment := currentTreatment
          assignedDoctor := assignedDoctor.getD "" }
      let s1 := { s with patients := Store.insert s.patients patientId patient1 }
      (.ok patient1,
        logAction (assignedDoctor.getD "") ("Updated patient record: " ++ patientId) ts s1)
    | none => (.error .notFound, s)

/-- index.ts `app.put js /patients/:patientId/reports`: push the report,
re-insert, log with the patient's assigned doctor as actor. -/
def addReport (patientId report ts : String) (s : HState) :
    Except ApiError (List String) × HState :=
  match Store.get s.patients patientId with
  | some patient =>
    let patient1 := { patient with reports := patient.reports ++ [report] }
    let s1 := { s with patients := Store.insert s.patients patientId patient1 }
    (.ok patient1.reports,
      logAction patient.assignedDoctor ("Added report for patient: " ++ patientId) ts s1)
  | none => (.error .notFound, s)

/-- index.ts `app.get js /patients/:patientId/reports`. -/
def listReports (patientId : String) (s : HState) :
    Except ApiError (List String) :=
  match Store.get s.patients patientId with
  | some patient => .ok patient.reports
  | none => .error .notFound

/-- index.ts `app.delete js /patients/:patientId/reports/:reportId`: the
parsed index must satisfy `0 <= i < reports.length`; `splice(i, 1)` is
`take i ++ drop (i+1)`.  The index is the result of `Number.parseInt` on
the route parameter, so it ranges over all integers. -/
def deleteReport (patientId : String) (reportIndex : Int) (ts : String)
    (s : HState) : Except ApiError Unit × HState :=
  match Store.get s.patients patientId with
  | some patient =>
    if 0 ≤ reportIndex ∧ reportIndex < (patient.reports.length : Int) then
      let patient1 :=
        { patient with
          reports := patient.reports.take reportIndex.toNat
            ++ patient.reports.drop (reportIndex.toNat + 1) }
      let s1 := { s with patients := Store.insert s.patients patientId patient1 }
      (.ok (),
        logAction patient.assignedDoctor ("Deleted report for patient: " ++ patientId) ts s1)
    else
      (.error .indexOutOfRange, s)
  | none => (.error .notFound, s)

/-- index.ts `app.put js /assignDoctor`: both lookups must succeed; the
patient's `assignedDoctor` becomes the stored doctor record's own id. -/
def assignDoctor (patientId doctorId ts : String) (s : HState) :
    Except ApiError Unit × HState :=
  match Store.get s.patients patientId, Store.get s.doctors doctorId with
  | some patient, some doctor =>
    let patient1 := { patient with assignedDoctor := doctor.doctorId }
    let s1 := { s with patients := Store.insert s.patients patientId patient1 }
    (.ok (), logAction doctor.doctorId ("Assigned to patient: " ++ patientId) ts s1)
  | _, _ => (.error .notFound, s)

/-- backup.ts `app.delete js /deletePatient/:patientId/:doctorId`: 404 when
the requesting doctor is unknown, 403 unless its role is exactly
`Role.FullAccess`, otherwise remove the patient key unconditionally and
log. -/
def deletePatient (patientId doctorId ts : String) (s : HState) :
    Except ApiError Unit × HState :=
  match Store.get s.doctors doctorId with
  | none => (.error .notFound, s)
  | some doctor =>
    if doctor.role = "FullAccess" then
      let s1 := { s with patients := Store.remove s.patients patientId }
      (.ok (), logAction doctor.doctorId ("Deleted patient record: " ++ patientId) ts s1)
    else
      (.error .permissionDenied, s)

/-- The projection built by `app.get js /generateReports`. -/
structure PatientSummary where
  patientId : String
  name : String
  currentTreatment : Option String
  assignedDoctor : String
  reports : List String
deriving DecidableEq

/-- The per-patient projection of `app.get js /generateReports`. -/
def projectPatient (p : Patient) : PatientSummary :=
  { patientId := p.patientId, name := p.name
    currentTreatment := p.currentTreatment
    assignedDoctor := p.assignedDoctor, reports := p.reports }

/-- index.ts `app.get js /generateReports`: iterate `patients.keys()` in
store order, re-fetch each key, push the projection when the lookup
succeeds and skip it silently otherwise, then log as "admin". -/
def generateReports (ts : String) (s : HState) :
    Except ApiError (List PatientSummary) × HState :=
  let reportData := (Store.keys s.patients).foldl
    (fun acc pid =>
      match Store.get s.patients pid with
      | some patient => acc ++ [projectPatient patient]
      | none => acc) []
  (.ok reportData, logAction "admin" "Generated patient reports" ts s)

/-! ### Store lemmas -/

theorem Store.get_insert_self {V : Type} (s : Store V) (k : String) (v : V) :
    Store.get (Store.insert s k v) k = some v := by
  induction s with
  | nil => simp [Store.insert, Store.get]
  | cons hd tl ih =>
    obtain ⟨k1, v1⟩ := hd
    by_cases h : k1 = k <;> simp [Store.insert, Store.get, h, ih]

theorem Store.get_insert_ne {V : Type} (s : Store V) (k k2 : String) (v : V)
    (h : k2 ≠ k) : Store.get (Store.insert s k v) k2 = Store.get s k2 := by
  have h0 : k ≠ k2 := Ne.symm h
  induction s with
  | nil => simp [Store.insert, Store.get, h0]
  | cons hd tl ih =>
    obtain ⟨k1, v1⟩ := hd
    by_cases h1 : k1 = k
    · subst h1
      simp [Store.insert, Store.get, h0]
    · simp [Store.insert, Store.get, h1, ih]

theorem Store.get_remove_self {V : Type} (s : Store V) (k : String) :
    Store.get (Store.remove s k) k = none := by
  induction s with
  | nil => simp [Store.remove, Store.get]
  | cons hd tl ih =>
    obtain ⟨k1, v1⟩ := hd
    by_cases h : k1 = k <;> simp [Store.remove, Store.get, h, ih]

theorem Store.get_remove_ne {V : Type} (s : Store V) (k k2 : String)
    (h : k2 ≠ k) : Store.get (Store.remove s k) k2 = Store.get s k2 := by
  have h0 : k ≠ k2 := Ne.symm h
  induction s with
  | nil => simp [Store.remove, Store.get]
  | cons hd tl ih =>
    obtain ⟨k1, v1⟩ := hd
    by_cases h1 : k1 = k
    · subst h1
      simp [Store.remove, Store.get, h0, ih]
    · simp [Store.remove, Store.get, h1, ih]

theorem Store.length_insert_fresh {V : Type} (s : Store V) (k : String) (v : V)
    (h : Store.get s k = none) :
    (Store.insert s k v).length = s.length + 1 := by
  induction s with
  | nil => simp [Store.insert]
  | cons hd tl ih =>
    obtain ⟨k1, v1⟩ := hd
    by_cases h1 : k1 = k
    · simp [Store.get, h1] at h
    · simp [Store.get, h1] at h
      simp [Store.insert, h1, ih h]

theorem Store.length_le_insert {V : Type} (s : Store V) (k : String) (v : V) :
    s.length ≤ (Store.insert s k v).length := by
  induction s with
  | nil => simp [Store.insert]
  | cons hd tl ih =>
    obtain ⟨k1, v1⟩ := hd
    by_cases h1 : k1 = k <;> simp [Store.insert, h1]
    exact ih

/-! ### Concrete fixtures used by witness and counterexample theorems -/

def wDoc1 : Doctor :=
  { doctorId := "d1", name := "Dr. A", role := "ReadOnly", department := "Cardio" }

def wDoc2 : Doctor :=
  { doctorId := "d2", name := "Dr. B", role := "FullAccess", department := "Cardio" }

def wPat1 : Patient :=
  { patientId := "p1", name := "P1", age := 40, medicalHistory := some []
    currentTreatment := some "rest", assignedDoctor := "d1", reports := [] }

def wPat2 : Patient :=
  { patientId := "p2", name := "P2", age := 9, medicalHistory := some ["flu"]
    currentTreatment := some "meds", assignedDoctor := "d2", reports := ["a", "b", "c"] }

def wState : HState :=
  { doctors := [("d1", wDoc1), ("d2", wDoc2)]
    patients := [("p1", wPat1), ("p2", wPat2)], auditLogs := [] }

def emptyState : HState := { doctors := [], patients := [], auditLogs := [] }

/-! ### Claims -/

/-- Claim C1: `deletePatient` fails `notFound` when the requesting doctor is
unknown; with role `ReadOnly` or `ExternalConsultant` it fails
`permissionDenied` with the whole state (hence any stored patient record)
unchanged; with role `FullAccess` it succeeds and a subsequent `getPatient`
returns `notFound`, and success does not require the patient to exist, so
removing an absent key is a silent no-op that still succeeds. -/
theorem deletePatient_permission_gate (s : HState) (patientId doctorId ts : String) :
    (Store.get s.doctors doctorId = none →
      deletePatient patientId doctorId ts s = (.error .notFound, s)) ∧
    (∀ d : Doctor, Store.get s.doctors doctorId = some d →
      (d.role = "ReadOnly" ∨ d.role = "ExternalConsultant") →
      deletePatient patientId doctorId ts s = (.error .permissionDenied, s)) ∧
    (∀ d : Doctor, Store.get s.doctors doctorId = some d → d.role = "FullAccess" →
      (deletePatient patientId doctorId ts s).1 = .ok () ∧
      getPatient patientId (deletePatient patientId doctorId ts s).2 = .error .notFound) := by
  refine ⟨?_, ?_, ?_⟩
  · intro h
    simp [deletePatient, h]
  · intro d hd hrole
    have hne : ¬ d.role = "FullAccess" := by
      rcases hrole with h | h <;> simp [h]
    simp [deletePatient, hd, hne]
  · intro d hd hrole
    simp [deletePatient, hd, hrole, getPatient, logAction, Store.get_remove_self]

/-- Witness for C1 on the concrete fixture state: the `ReadOnly` doctor is
denied with the state unchanged, and the `FullAccess` doctor deletes the
patient so a subsequent `getPatient` fails. -/
theorem deletePatient_permission_gate_witness :
    deletePatient "p1" "d1" "t1" wState = (.error .permissionDenied, wState) ∧
    (deletePatient "p1" "d2" "t1" wState).1 = .ok () ∧
    getPatient "p1" (deletePatient "p1" "d2" "t1" wState).2 = .error .notFound := by
  refine ⟨?_, ?_, ?_⟩
  · exact (deletePatient_permission_gate wState "p1" "d1" "t1").2.1 wDoc1
      (by decide) (Or.inl (by decide))
  · exact ((deletePatient_permission_gate wState "p1" "d2" "t1").2.2 wDoc2
      (by decide) (by decide)).1
  · exact ((deletePatient_permission_gate wState "p1" "d2" "t1").2.2 wDoc2
      (by decide) (by decide)).2

/-- Characterisation of the validation rule: it rejects exactly the inputs
with a missing or falsy `patientId`, `name`, `age` (zero included) or
`assignedDoctor`. -/
theorem validatePatientInput_eq_false_iff (pid nm : Option String) (ag : Option Int)
    (mh : Option (List String)) (ct ad : Option String) :
    validatePatientInput ⟨pid, nm, ag, mh, ct, ad⟩ = false ↔
      (pid = none ∨ pid = some "" ∨ nm = none ∨ nm = some "" ∨ ag = none ∨ ag = some 0
        ∨ ad = none ∨ ad = some "") := by
  rcases pid with _ | pid <;> rcases nm with _ | nm <;> rcases ag with _ | ag <;>
    rcases ad with _ | ad <;>
      (simp [validatePatientInput, truthyStr, truthyInt]; try tauto)

/-- Claim C2: `createPatient` (and `updatePatient`, which re-applies the
same rule) fails `validationError` exactly when one of `patientId`,
`name`, `age` or `assignedDoctor` is missing or falsy — age 0 included —
independently of whether `assignedDoctor` names a stored doctor, and a
`validationError` leaves the state unchanged. -/
theorem patient_validation_totality (s : HState) (newId ts : String)
    (name : Option String) (age : Option Int) (mh : Option (List String))
    (ct ad : Option String) :
    (((createPatient name age mh ct ad newId ts s).1 = .error .validationError) ↔
      (newId = "" ∨ name = none ∨ name = some "" ∨ age = none ∨ age = some 0
        ∨ ad = none ∨ ad = some "")) ∧
    ((createPatient name age mh ct ad newId ts s).1 = .error .validationError →
      (createPatient name age mh ct ad newId ts s).2 = s) ∧
    ∀ patientId : String,
      (((updatePatient patientId name age mh ct ad ts s).1 = .error .validationError) ↔
        (patientId = "" ∨ name = none ∨ name = some "" ∨ age = none ∨ age = some 0
          ∨ ad = none ∨ ad = some "")) ∧
      ((updatePatient patientId name age mh ct ad ts s).1 = .error .validationError →
        (updatePatient patientId name age mh ct ad ts s).2 = s) := by
  have hc : validatePatientInput ⟨some newId, name, age, mh, ct, ad⟩ = false ↔
      (newId = "" ∨ name = none ∨ name = some "" ∨ age = none ∨ age = some 0
        ∨ ad = none ∨ ad = some "") := by
    simpa using validatePatientInput_eq_false_iff (some newId) name age mh ct ad
  have hA : ((createPatient name age mh ct ad newId ts s).1 = .error .validationError) ↔
      validatePatientInput ⟨some newId, name, age, mh, ct, ad⟩ = false := by
    cases hv : validatePatientInput ⟨some newId, name, age, mh, ct, ad⟩ with
    | false => simp [createPatient, hv]
    | true => simp [createPatient, hv]
  refine ⟨hA.trans hc, ?_, ?_⟩
  · intro h
    have hv := hA.mp h
    simp [createPatient, hv]
  · intro patientId
    have hc2 : validatePatientInput ⟨some patientId, name, age, mh, ct, ad⟩ = false ↔
        (patientId = "" ∨ name = none ∨ name = some "" ∨ age = none ∨ age = some 0
          ∨ ad = none ∨ ad = some "") := by
      simpa using validatePatientInput_eq_false_iff (some patientId) name age mh ct ad
    have hA2 : ((updatePatient patientId name age mh ct ad ts s).1
          = .error .validationError) ↔
        validatePatientInput ⟨some patientId, name, age, mh, ct, ad⟩ = false := by
      cases hv : validatePatientInput ⟨some patientId, name, age, mh, ct, ad⟩ with
      | false => simp [updatePatient, hv]
      | true =>
        cases hp : Store.get s.patients patientId <;> simp [updatePatient, hv, hp]
    refine ⟨hA2.trans hc2, ?_⟩
    intro h
    have hv := hA2.mp h
    simp [updatePatient, hv]

/-- Witness for C2: age 0 with every other field present is rejected by
`createPatient` with the state unchanged. -/
theorem patient_validation_totality_witness :
    (createPatient (some "P9") (some 0) none none (some "d1") "p9" "t2" wState).1
        = .error .validationError ∧
    (createPatient (some "P9") (some 0) none none (some "d1") "p9" "t2" wState).2
        = wState := by
  have h := patient_validation_totality wState "p9" "t2" (some "P9") (some 0)
    none none (some "d1")
  have h1 : (createPatient (some "P9") (some 0) none none (some "d1") "p9" "t2" wState).1
      = .error .validationError :=
    h.1.mpr (Or.inr (Or.inr (Or.inr (Or.inr (Or.inl rfl)))))
  exact ⟨h1, h.2.1 h1⟩

/-- Claim C3: for an existing patient, `addReport` appends the report at the
end (one element longer, ending in `r`); `deleteReport` at an in-range
index succeeds and removes exactly the element at that position, shifting
the later ones left and touching no other field; at an out-of-range index
it fails `indexOutOfRange` with the whole state unchanged — never a
partial mutation. -/
theorem report_index_laws (s : HState) (patientId r ts : String) (i : Int)
    (p : Patient) (hp : Store.get s.patients patientId = some p) :
    (∃ p1 : Patient,
      Store.get ((addReport patientId r ts s).2).patients patientId = some p1 ∧
      p1.reports = p.reports ++ [r] ∧
      p1.reports.length = p.reports.length + 1 ∧
      p1.reports.getLast? = some r) ∧
    (0 ≤ i → i < (p.reports.length : Int) →
      (deleteReport patientId i ts s).1 = .ok () ∧
      ∃ p1 : Patient,
        Store.get ((deleteReport patientId i ts s).2).patients patientId = some p1 ∧
        p1.reports = p.reports.take i.toNat ++ p.reports.drop (i.toNat + 1) ∧
        p1.patientId = p.patientId ∧ p1.name = p.name ∧ p1.age = p.age ∧
        p1.medicalHistory = p.medicalHistory ∧
        p1.currentTreatment = p.currentTreatment ∧
        p1.assignedDoctor = p.assignedDoctor) ∧
    ((i < 0 ∨ (p.reports.length : Int) ≤ i) →
      deleteReport patientId i ts s = (.error .indexOutOfRange, s)) := by
  refine ⟨?_, ?_, ?_⟩
  · refine ⟨{ p with reports := p.reports ++ [r] }, ?_, rfl, by simp, by simp⟩
    simp [addReport, hp, logAction, Store.get_insert_self]
  · intro h0 h1
    constructor
    · simp [deleteReport, hp, h0, h1]
    · refine ⟨{ p with
        reports := p.reports.take i.toNat ++ p.reports.drop (i.toNat + 1) },
        ?_, rfl, rfl, rfl, rfl, rfl, rfl, rfl⟩
      simp [deleteReport, hp, h0, h1, logAction, Store.get_insert_self]
  · intro h
    have hcond : ¬(0 ≤ i ∧ i < (p.reports.length : Int)) := by
      rcases h with h | h <;> omega
    simp [deleteReport, hp, hcond]

/-- Witness for C3 on the fixture patient with reports `["a","b","c"]`:
deleting index 1 succeeds, deleting index 5 fails `indexOutOfRange` and
leaves the state intact, and adding a report appends it. -/
theorem report_index_laws_witness :
    (deleteReport "p2" 1 "t3" wState).1 = .ok () ∧
    deleteReport "p2" 5 "t3" wState = (.error .indexOutOfRange, wState) ∧
    (∃ p1 : Patient,
      Store.get ((addReport "p2" "r9" "t3" wState).2).patients "p2" = some p1 ∧
      p1.reports = wPat2.reports ++ ["r9"] ∧
      p1.reports.length = wPat2.reports.length + 1 ∧
      p1.reports.getLast? = some "r9") := by
  refine ⟨?_, ?_, ?_⟩
  · exact ((report_index_laws wState "p2" "r9" "t3" 1 wPat2 (by decide)).2.1
      (by decide) (by decide)).1
  · exact (report_index_laws wState "p2" "r9" "t3" 5 wPat2 (by decide)).2.2
      (Or.inr (by decide))
  · exact (report_index_laws wState "p2" "r9" "t3" 1 wPat2 (by decide)).1

/-- Supporting invariant: `createDoctor` — the only operation that inserts
into the doctor store — keys every doctor by its own `doctorId`, so in
every reachable state a stored doctor record's `doctorId` equals its key. -/
theorem createDoctor_preserves_doctor_key (s : HState)
    (name role department : Option String) (newId ts k : String) (d0 : Doctor)
    (hs : ∀ k1 d1, Store.get s.doctors k1 = some d1 → d1.doctorId = k1)
    (hd : Store.get ((createDoctor name role department newId ts s).2).doctors k
      = some d0) :
    d0.doctorId = k := by
  cases hv : (!truthyStr name || !truthyStr role || !truthyStr department) with
  | true =>
    simp [createDoctor, hv] at hd
    exact hs k d0 hd
  | false =>
    by_cases hk : k = newId
    · subst hk
      simp [createDoctor, hv, logAction, Store.get_insert_self] at hd
      subst hd
      rfl
    · simp [createDoctor, hv, logAction, Store.get_insert_ne _ _ _ _ hk] at hd
      exact hs k d0 hd

/-- Claim C4: `assignDoctor` fails `notFound` with no state change when the
patient or the doctor is missing, and succeeds exactly when both exist; on
success the patient record changes only in `assignedDoctor`, which becomes
the requested doctor id (stored doctors carry their key as `doctorId`, per
`createDoctor_preserves_doctor_key`), every other patient is untouched and
the doctor store is untouched. -/
theorem assignDoctor_referential (s : HState) (patientId doctorId ts : String) :
    ((Store.get s.patients patientId = none ∨ Store.get s.doctors doctorId = none) →
      assignDoctor patientId doctorId ts s = (.error .notFound, s)) ∧
    (∀ (p : Patient) (d : Doctor),
      Store.get s.patients patientId = some p →
      Store.get s.doctors doctorId = some d →
      d.doctorId = doctorId →
      (assignDoctor patientId doctorId ts s).1 = .ok () ∧
      getPatient patientId ((assignDoctor patientId doctorId ts s).2)
        = .ok { p with assignedDoctor := doctorId } ∧
      (∀ q, q ≠ patientId →
        Store.get ((assignDoctor patientId doctorId ts s).2).patients q
          = Store.get s.patients q) ∧
      ((assignDoctor patientId doctorId ts s).2).doctors = s.doctors) := by
  refine ⟨?_, ?_⟩
  · intro h
    rcases h with h | h
    · cases hd : Store.get s.doctors doctorId <;> simp [assignDoctor, h, hd]
    · cases hp : Store.get s.patients patientId <;> simp [assignDoctor, h, hp]
  · intro p d hp hd hid
    refine ⟨?_, ?_, ?_, ?_⟩
    · simp [assignDoctor, hp, hd]
    · simp [assignDoctor, hp, hd, getPatient, logAction, Store.get_insert_self, hid]
    · intro q hq
      simp [assignDoctor, hp, hd, logAction, Store.get_insert_ne _ _ _ _ hq]
    · simp [assignDoctor, hp, hd, logAction]

/-- Witness for C4: reassigning patient `p1` to the existing doctor `d2`
succeeds and is visible through `getPatient`, while an unknown doctor id
fails `notFound` with the state unchanged. -/
theorem assignDoctor_referential_witness :
    (assignDoctor "p1" "d2" "t4" wState).1 = .ok () ∧
    getPatient "p1" ((assignDoctor "p1" "d2" "t4" wState).2)
      = .ok { wPat1 with assignedDoctor := "d2" } ∧
    assignDoctor "p1" "d9" "t4" wState = (.error .notFound, wState) := by
  have hs := (assignDoctor_referential wState "p1" "d2" "t4").2 wPat1 wDoc2
    (by decide) (by decide) (by decide)
  exact ⟨hs.1, hs.2.1,
    (assignDoctor_referential wState "p1" "d9" "t4").1 (Or.inr (by decide))⟩

/-- First state of the audit-collision run: one doctor created, logged at a
fixed instant. -/
def auditDemoState1 : HState :=
  (createDoctor (some "Dr. A") (some "FullAccess") (some "Cardio") "d1"
    "2026-01-01T00:00:00.000Z" emptyState).2

/-- Second state: another doctor created in the same instant. -/
def auditDemoState2 : HState :=
  (createDoctor (some "Dr. B") (some "ReadOnly") (some "Cardio") "d2"
    "2026-01-01T00:00:00.000Z" auditDemoState1).2

/-- Claim C5 (defect demonstration): audit entries are keyed by the bare
timestamp, so a second successful mutating operation logged in the same
instant overwrites the first entry: after the second `createDoctor` the
audit store still holds a single entry and the text of the first entry has
been replaced, contradicting append-only behaviour at equal timestamps. -/
theorem audit_same_instant_overwrite :
    auditDemoState1.auditLogs.length = 1 ∧
    Store.get auditDemoState1.auditLogs "2026-01-01T00:00:00.000Z"
      = some "d1 - Added new doctor" ∧
    (createDoctor (some "Dr. B") (some "ReadOnly") (some "Cardio") "d2"
        "2026-01-01T00:00:00.000Z" auditDemoState1).1
      = .ok { doctorId := "d2", name := "Dr. B", role := "ReadOnly"
              department := "Cardio" } ∧
    auditDemoState2.auditLogs.length = 1 ∧
    Store.get auditDemoState2.auditLogs "2026-01-01T00:00:00.000Z"
      = some "d2 - Added new doctor" := by
  refine ⟨rfl, by decide, rfl, rfl, by decide⟩

/-- Claim C6: with a fresh generated id (one not yet a key of the doctor
store), a `createDoctor` whose three fields are present and non-empty
succeeds, returns the record built from them under the new id, and an
immediate `getDoctor` on that id returns the identical record; a missing
or empty `name`, `role` or `department` fails `validationError` with the
state unchanged. -/
theorem createDoctor_roundtrip (s : HState) (name role department : Option String)
    (newId ts : String) (hfresh : Store.get s.doctors newId = none) :
    ((name = none ∨ name = some "" ∨ role = none ∨ role = some ""
        ∨ department = none ∨ department = some "") →
      createDoctor name role department newId ts s = (.error .validationError, s)) ∧
    (∀ n r dp : String, name = some n → role = some r → department = some dp →
      n ≠ "" → r ≠ "" → dp ≠ "" →
      (createDoctor name role department newId ts s).1
        = .ok { doctorId := newId, name := n, role := r, department := dp } ∧
      getDoctor newId ((createDoctor name role department newId ts s).2)
        = .ok { doctorId := newId, name := n, role := r, department := dp }) ∧
    getDoctor newId s = .error .notFound := by
  refine ⟨?_, ?_, by simp [getDoctor, hfresh]⟩
  · intro h
    have hv : (!truthyStr name || !truthyStr role || !truthyStr department) = true := by
      rcases h with h | h | h | h | h | h <;> simp [h, truthyStr]
    simp [createDoctor, hv]
  · intro n r dp hn hr hdp hn1 hr1 hdp1
    subst hn
    subst hr
    subst hdp
    have hv : (!truthyStr (some n) || !truthyStr (some r) || !truthyStr (some dp))
        = false := by
      simp [truthyStr, hn1, hr1, hdp1]
    constructor
    · simp [createDoctor, hv]
    · simp [createDoctor, hv, getDoctor, logAction, Store.get_insert_self]

/-- Witness for C6: creating a doctor under the fresh id `d7` round-trips
through `getDoctor`, and a missing name is rejected. -/
theorem createDoctor_roundtrip_witness :
    (createDoctor (some "Dr. C") (some "ReadOnly") (some "Neuro") "d7" "t5" wState).1
      = .ok { doctorId := "d7", name := "Dr. C", role := "ReadOnly"
              department := "Neuro" } ∧
    getDoctor "d7"
        ((createDoctor (some "Dr. C") (some "ReadOnly") (some "Neuro") "d7" "t5" wState).2)
      = .ok { doctorId := "d7", name := "Dr. C", role := "ReadOnly"
              department := "Neuro" } ∧
    createDoctor none (some "ReadOnly") (some "Neuro") "d7" "t5" wState
      = (.error .validationError, wState) := by
  have h2 := (createDoctor_roundtrip wState (some "Dr. C") (some "ReadOnly")
    (some "Neuro") "d7" "t5" (by decide)).2.1 "Dr. C" "ReadOnly" "Neuro" rfl rfl rfl
    (by decide) (by decide) (by decide)
  have h3 := (createDoctor_roundtrip wState none (some "ReadOnly") (some "Neuro")
    "d7" "t5" (by decide)).1 (Or.inl rfl)
  exact ⟨h2.1, h2.2, h3⟩

/-- Claim C7: a successful `updatePatient` overwrites exactly the five
mutable fields `name`, `age`, `medicalHistory`, `currentTreatment` and
`assignedDoctor` of the stored record, keeps `patientId` and `reports`
unchanged, stores the result under the same key, and touches no other
patient record and no doctor record. -/
theorem updatePatient_frame (s : HState) (patientId ts : String)
    (name : Option String) (age : Option Int) (mh : Option (List String))
    (ct ad : Option String) (p p1 : Patient) (s1 : HState)
    (hp : Store.get s.patients patientId = some p)
    (hrun : updatePatient patientId name age mh ct ad ts s = (.ok p1, s1)) :
    p1.patientId = p.patientId ∧ p1.reports = p.reports ∧
    p1.name = name.getD "" ∧ p1.age = age.getD 0 ∧ p1.medicalHistory = mh ∧
    p1.currentTreatment = ct ∧ p1.assignedDoctor = ad.getD "" ∧
    Store.get s1.patients patientId = some p1 ∧
    (∀ q, q ≠ patientId → Store.get s1.patients q = Store.get s.patients q) ∧
    s1.doctors = s.doctors := by
  cases hv : validatePatientInput ⟨some patientId, name, age, mh, ct, ad⟩ with
  | false => simp [updatePatient, hv] at hrun
  | true =>
    simp [updatePatient, hv, hp, logAction, Prod.mk.injEq] at hrun
    obtain ⟨h1, h2⟩ := hrun
    subst h1
    refine ⟨rfl, rfl, rfl, rfl, rfl, rfl, rfl, ?_, ?_, ?_⟩
    · rw [← h2]
      simp [Store.get_insert_self]
    · intro q hq
      rw [← h2]
      simp [Store.get_insert_ne _ _ _ _ hq]
    · rw [← h2]

/-- The patient record produced by the C7 witness update. -/
def wPat1u : Patient :=
  { patientId := "p1", name := "P1x", age := 41, medicalHistory := none
    currentTreatment := some "x", assignedDoctor := "d2", reports := [] }

/-- Witness for C7: updating fixture patient `p1` rewrites the five mutable
fields, keeps id and reports, and leaves patient `p2` and the doctor store
untouched. -/
theorem updatePatient_frame_witness :
    wPat1u.patientId = wPat1.patientId ∧
    wPat1u.reports = wPat1.reports ∧
    Store.get ((updatePatient "p1" (some "P1x") (some 41) none (some "x")
        (some "d2") "t6" wState).2).patients "p1" = some wPat1u ∧
    Store.get ((updatePatient "p1" (some "P1x") (some 41) none (some "x")
        (some "d2") "t6" wState).2).patients "p2" = Store.get wState.patients "p2" ∧
    ((updatePatient "p1" (some "P1x") (some 41) none (some "x")
        (some "d2") "t6" wState).2).doctors = wState.doctors := by
  have h := updatePatient_frame wState "p1" "t6" (some "P1x") (some 41) none
    (some "x") (some "d2") wPat1 wPat1u
    ((updatePatient "p1" (some "P1x") (some 41) none (some "x")
      (some "d2") "t6" wState).2)
    (by decide) rfl
  exact ⟨h.1, h.2.1, h.2.2.2.2.2.2.2.1, h.2.2.2.2.2.2.2.2.1 "p2" (by decide),
    h.2.2.2.2.2.2.2.2.2⟩

/-- The push-into-accumulator loop of `generateReports` collects exactly
the projections of the keys whose lookup succeeds, in iteration order. -/
theorem foldl_push_filterMap (g : String → Option Patient) (l : List String)
    (acc : List PatientSummary) :
    l.foldl (fun a pid =>
      match g pid with
      | some patient => a ++ [projectPatient patient]
      | none => a) acc
      = acc ++ l.filterMap (fun pid => (g pid).map projectPatient) := by
  induction l generalizing acc with
  | nil => simp
  | cons hd tl ih =>
    cases hg : g hd <;> simp [List.foldl_cons, hg, ih]

/-- Claim C8: `generateReports` always succeeds, its payload is exactly one
projection per store key whose lookup succeeds during the iteration, taken
in store key order (a `none` lookup is skipped, never an error); the
doctor and patient stores are untouched and one audit entry with actor
"admin" and action "Generated patient reports" is inserted — a genuinely
new entry whenever the timestamp is not already an audit key. -/
theorem generateReports_projection (s : HState) (ts : String) :
    (generateReports ts s).1
      = .ok ((Store.keys s.patients).filterMap
          (fun pid => (Store.get s.patients pid).map projectPatient)) ∧
    ((generateReports ts s).2).patients = s.patients ∧
    ((generateReports ts s).2).doctors = s.doctors ∧
    ((generateReports ts s).2).auditLogs
      = Store.insert s.auditLogs ts "admin - Generated patient reports" ∧
    (Store.get s.auditLogs ts = none →
      ((generateReports ts s).2).auditLogs.length = s.auditLogs.length + 1 ∧
      Store.get ((generateReports ts s).2).auditLogs ts
        = some "admin - Generated patient reports") := by
  refine ⟨?_, rfl, rfl, rfl, ?_⟩
  · simp [generateReports, foldl_push_filterMap]
  · intro h
    exact ⟨by simp [generateReports, logAction, Store.length_insert_fresh _ _ _ h],
      by simp [generateReports, logAction, Store.get_insert_self]⟩

/-- Witness for C8: on the fixture state the summary lists the two stored
patients in key order and a fresh timestamp adds exactly one audit entry. -/
theorem generateReports_projection_witness :
    (generateReports "t7" wState).1 = .ok [projectPatient wPat1, projectPatient wPat2] ∧
    ((generateReports "t7" wState).2).auditLogs.length = wState.auditLogs.length + 1 ∧
    Store.get ((generateReports "t7" wState).2).auditLogs "t7"
      = some "admin - Generated patient reports" := by
  have h := generateReports_projection wState "t7"
  have h5 := h.2.2.2.2 (by decide)
  refine ⟨?_, h5.1, h5.2⟩
  rw [h.1]
  rfl

/-- Claim C9: `createDoctor` accepts any non-empty role string — the doctor
is created and stored even when the role is none of the `Role` enum values
— and any role other than the exact string "FullAccess" is refused by the
`deletePatient` permission check. -/
theorem createDoctor_open_role (s : HState) (n r dp newId ts patientId ts2 : String)
    (hn : n ≠ "") (hr : r ≠ "") (hdp : dp ≠ "") (hrole : r ≠ "FullAccess") :
    (createDoctor (some n) (some r) (some dp) newId ts s).1
      = .ok { doctorId := newId, name := n, role := r, department := dp } ∧
    Store.get ((createDoctor (some n) (some r) (some dp) newId ts s).2).doctors newId
      = some { doctorId := newId, name := n, role := r, department := dp } ∧
    deletePatient patientId newId ts2
        ((createDoctor (some n) (some r) (some dp) newId ts s).2)
      = (.error .permissionDenied,
          (createDoctor (some n) (some r) (some dp) newId ts s).2) := by
  have hv : (!truthyStr (some n) || !truthyStr (some r) || !truthyStr (some dp))
      = false := by
    simp [truthyStr, hn, hr, hdp]
  have hget : Store.get
      ((createDoctor (some n) (some r) (some dp) newId ts s).2).doctors newId
      = some { doctorId := newId, name := n, role := r, department := dp } := by
    simp [createDoctor, hv, logAction, Store.get_insert_self]
  refine ⟨by simp [createDoctor, hv], hget, ?_⟩
  simp [deletePatient, hget, hrole]

/-- Witness for C9: a doctor with the off-enum role "Janitor" is created
and stored, and is then denied deletion of patient `p1`. -/
theorem createDoctor_open_role_witness :
    (createDoctor (some "Dr. J") (some "Janitor") (some "Ops") "d8" "t8" wState).1
      = .ok { doctorId := "d8", name := "Dr. J", role := "Janitor"
              department := "Ops" } ∧
    deletePatient "p1" "d8" "t9"
        ((createDoctor (some "Dr. J") (some "Janitor") (some "Ops") "d8" "t8" wState).2)
      = (.error .permissionDenied,
          (createDoctor (some "Dr. J") (some "Janitor") (some "Ops") "d8" "t8" wState).2) := by
  have h := createDoctor_open_role wState "Dr. J" "Janitor" "Ops" "d8" "t8" "p1" "t9"
    (by decide) (by decide) (by decide) (by decide)
  exact ⟨h.1, h.2.2⟩

/-- Claim C10: `updatePatient` neither validates nor defaults
`medicalHistory` and `currentTreatment`: with the four validated fields
truthy, an update whose `medicalHistory` and `currentTreatment` are absent
succeeds and stores the absent value for both, so a stored record can lack
them — whereas a successful `createPatient` with an absent
`medicalHistory` defaults it to the empty sequence. -/
theorem updatePatient_no_default (s : HState) (patientId ts n : String) (a : Int)
    (ad : String) (p : Patient)
    (hp : Store.get s.patients patientId = some p)
    (hpid : patientId ≠ "") (hn : n ≠ "") (ha : a ≠ 0) (had : ad ≠ "") :
    (∃ p1 : Patient,
      (updatePatient patientId (some n) (some a) none none (some ad) ts s).1
        = .ok p1 ∧
      p1.medicalHistory = none ∧ p1.currentTreatment = none ∧
      Store.get ((updatePatient patientId (some n) (some a) none none (some ad)
        ts s).2).patients patientId = some p1) ∧
    (∀ (newId ts2 : String) (q : Patient) (s2 : HState),
      createPatient (some n) (some a) none none (some ad) newId ts2 s
        = (.ok q, s2) →
      q.medicalHistory = some []) := by
  have hv : validatePatientInput ⟨some patientId, some n, some a, none, none, some ad⟩
      = true := by
    simp [validatePatientInput, truthyStr, truthyInt, hpid, hn, ha, had]
  refine ⟨⟨{ p with
      name := n
      age := a
      medicalHistory := none
      currentTreatment := none
      assignedDoctor := ad }, ?_, rfl, rfl, ?_⟩, ?_⟩
  · simp [updatePatient, hv, hp]
  · simp [updatePatient, hv, hp, logAction, Store.get_insert_self]
  · intro newId ts2 q s2 hrun
    cases hv2 : validatePatientInput ⟨some newId, some n, some a, none, none, some ad⟩ with
    | false => simp [createPatient, hv2] at hrun
    | true =>
      simp [createPatient, hv2, Prod.mk.injEq] at hrun
      obtain ⟨h1, h2⟩ := hrun
      subst h1
      rfl

/-- The patient record created by the C10 witness `createPatient` call. -/
def wPatC : Patient :=
  { patientId := "pn", name := "P1y", age := 7, medicalHistory := some []
    currentTreatment := none, assignedDoctor := "d2", reports := [] }

/-- Witness for C10: updating fixture patient `p1` with absent
`medicalHistory` and `currentTreatment` stores both as absent, while the
analogous `createPatient` stores the empty history. -/
theorem updatePatient_no_default_witness :
    (∃ p1 : Patient,
      (updatePatient "p1" (some "P1y") (some 7) none none (some "d2") "ta" wState).1
        = .ok p1 ∧
      p1.medicalHistory = none ∧ p1.currentTreatment = none ∧
      Store.get ((updatePatient "p1" (some "P1y") (some 7) none none (some "d2")
        "ta" wState).2).patients "p1" = some p1) ∧
    wPatC.medicalHistory = some [] := by
  have h := updatePatient_no_default wState "p1" "ta" "P1y" 7 "d2" wPat1
    (by decide) (by decide) (by decide) (by decide) (by decide)
  exact ⟨h.1, h.2 "pn" "tb" wPatC
    ((createPatient (some "P1y") (some 7) none none (some "d2") "pn" "tb" wState).2) rfl⟩
